import Mathlib

/-!
Verification development for the bowser raster-stack access and
tile-postprocessing layer (`src/bowser/readers.py`, `src/bowser/titiler.py`,
`src/bowser/main.py`).

Shallow embedding conventions:
* Float sample values are embedded as exact rationals `ℚ` wherever the code
  only moves, compares, or subtracts them; where IEEE NaN behaviour matters
  (the `Shift` algorithm) values live in `FloatQ`, a rational extended with an
  explicit NaN that propagates through subtraction, as IEEE arithmetic does.
* Real-valued mathematics (phase angles, the 2π rewrap) is embedded over `ℝ`.
* A numpy masked array is a list of `Option ℚ`: `none` is a masked (nodata)
  entry, `some x` a valid sample of value `x`.
* `rio_tiler.models.ImageData.mask` is a uint8 mask (255 = valid, 0 =
  invalid); numpy-convention boolean masks use `true` = invalid.
* Fallible construction (`rio.open`, dataclass `__post_init__`) returns
  `Except String`.
-/

/-- Metadata probed from one raster file by `RasterReader.from_file`:
shape, the per-file nodata value recorded in the file (`src.nodatavals`),
the underlying sample values, and the (cached, externally computed)
lon/lat → (row, col) pixel transform of `_lonlat_to_rowcol`. -/
structure FileMeta where
  rows : Nat
  cols : Nat
  vals : Nat → Nat → ℚ
  nodata : Option ℚ
  lonlat_to_rowcol : ℚ → ℚ → Nat × Nat

/-- One opened single-band raster handle (`RasterReader` dataclass of
`readers.py`): shape, sample values, resolved nodata, pixel transform. -/
structure RasterReader where
  rows : Nat
  cols : Nat
  vals : Nat → Nat → ℚ
  nodata : Option ℚ
  lonlat_to_rowcol : ℚ → ℚ → Nat × Nat

/-- Pixelwise model of `_mask_array` (readers.py line 100) combined with the
guard in `__getitem__` line 273: when the reader has no nodata value the raw
sample is returned unmasked; when nodata is set, samples equal to it are
masked (`np.ma.masked_equal`).  Over exact rationals `np.isnan(nodata_value)`
is always false, so the `masked_invalid` branch of `_mask_array` never fires
in this embedding. -/
def mask_array_pixel (nodata : Option ℚ) (x : ℚ) : Option ℚ :=
  match nodata with
  | none => some x
  | some nd => if x = nd then none else some x

/-- Windowed read `RasterReader.__getitem__` for the slice pair
`(r0:r1, c0:c1)` with unit step (the only step the claims use): the row-major
rectangle of nodata-masked pixels.  The final `.squeeze()` of the source only
drops singleton axes; content is kept unsqueezed here and axis bookkeeping is
done by `np_squeeze_shape` below. -/
def RasterReader.getitem (rd : RasterReader) (r0 r1 c0 c1 : Nat) :
    List (List (Option ℚ)) :=
  (List.range (r1 - r0)).map fun i =>
    (List.range (c1 - c0)).map fun j =>
      mask_array_pixel rd.nodata (rd.vals (r0 + i) (c0 + j))

/-- Model of `RasterReader.read_lonlat`: resolve the pixel through the
handle's own transformer, then read that single (squeezed 1×1) pixel. -/
def RasterReader.read_lonlat (rd : RasterReader) (lon lat : ℚ) : Option ℚ :=
  mask_array_pixel rd.nodata
    (rd.vals (rd.lonlat_to_rowcol lon lat).1 (rd.lonlat_to_rowcol lon lat).2)

/-- Sequential branch of `_read_3d` (readers.py line 309) for a full band
slice: read the same window from every reader, in file-list order. -/
def read_3d_seq (readers : List RasterReader) (r0 r1 c0 c1 : Nat) :
    List (List (List (Option ℚ))) :=
  readers.map fun rd => rd.getitem r0 r1 c0 c1

/-- Concurrent branch of `_read_3d` (line 311): the thread pool may finish
the per-band reads in any completion order `σ`, producing a list of
(submission index, result) pairs in completion order; `executor.map`
reassembles results by submission index.  `σ` ranges over all permutations,
modelling an arbitrary I/O completion order. -/
def read_3d_conc (readers : List RasterReader) (r0 r1 c0 c1 : Nat)
    (σ : Equiv.Perm (Fin readers.length)) : List (List (List (Option ℚ))) :=
  let completed := (List.finRange readers.length).map fun k =>
    ((σ k).val, (readers.get (σ k)).getitem r0 r1 c0 c1)
  (List.range readers.length).map fun i =>
    (((completed.find? fun p => p.1 == i).map fun p => p.2).getD [])

/-- Shape-level model of `np.squeeze`: drop every singleton axis. -/
def np_squeeze_shape (dims : List Nat) : List Nat := dims.filter fun d => d != 1

/-- Shape of the array `_read_3d` returns for an `n`-band read of an
`h × w` window: each per-reader 2-D read is squeezed (`__getitem__` line 277),
`np.stack` prepends the band axis, and the final `np.squeeze` (line 317) drops
the remaining singletons. -/
def read_3d_result_shape (n h w : Nat) : List Nat :=
  np_squeeze_shape (n :: np_squeeze_shape [h, w])

/-- Python truthiness of `nodata or src.nodatavals[band - 1]` in
`RasterReader.from_file` (line 204): `None` and `0.0` are falsy, so an absent
or zero override falls back to the file's own value. -/
def py_or_nodata (a b : Option ℚ) : Option ℚ :=
  match a with
  | none => b
  | some x => if x = 0 then b else some x

/-- `RasterReader.from_file`: build a handle from probed file metadata,
resolving nodata via Python `or` against the file's recorded value. -/
def RasterReader.from_file (f : FileMeta) (nodata : Option ℚ) : RasterReader :=
  ⟨f.rows, f.cols, f.vals, py_or_nodata nodata f.nodata, f.lonlat_to_rowcol⟩

/-- Nodata resolution of `RasterStackReader.from_file_list` (lines 424-428):
collect the set of per-reader nodata values (`{r.nodata for r in readers}`,
embedded as `List.dedup`); if exactly one distinct value was discovered it
overwrites the caller-supplied `nodata` argument, otherwise the caller's
argument is kept. -/
def stack_nodata (perFile : List (Option ℚ)) (caller : Option ℚ) : Option ℚ :=
  match perFile.dedup with
  | [x] => x
  | _ => caller

/-- `RasterStackReader.from_file_list` restricted to openable files: each
file is opened by `RasterReader.from_file` with no per-file nodata override
(the source does not forward the caller's `nodata` to `from_file`), then the
stack-wide nodata is resolved by `stack_nodata`.  Returns the reader list and
the stack nodata. -/
def RasterStackReader.from_file_list (files : List FileMeta)
    (nodata : Option ℚ) : List RasterReader × Option ℚ :=
  let readers := files.map fun f => RasterReader.from_file f none
  (readers, stack_nodata (readers.map RasterReader.nodata) nodata)

/-- Opening a single path: `none` stands for a path `rio.open` cannot open,
which raises (embedded as `Except.error`). -/
def open_raster : Option FileMeta → Except String RasterReader
  | none => .error "rasterio open failed"
  | some f => .ok (RasterReader.from_file f none)

/-- All-or-nothing bulk open of `thread_map(_read, ...)` in `from_file_list`
(lines 418-423): an exception in any worker propagates and aborts the whole
map, so the result is either every reader or the first error. -/
def open_all : List (Option FileMeta) → Except String (List RasterReader)
  | [] => .ok []
  | f :: fs => do
      let r ← open_raster f
      let rs ← open_all fs
      .ok (r :: rs)

/-- `RasterStackReader.from_file_list` including its failure paths: bulk open
may fail, and `RasterStackReader.__post_init__` (lines 364-366) dereferences
`self.readers[0]`, which raises `IndexError` on an empty reader list. -/
def RasterStackReader.from_file_list_checked (files : List (Option FileMeta))
    (nodata : Option ℚ) : Except String (List RasterReader × Option ℚ) := do
  let readers ← open_all files
  if readers.isEmpty then
    .error "IndexError in post-init: readers[0]"
  else
    .ok (readers, stack_nodata (readers.map RasterReader.nodata) nodata)

/-- `RasterStackReader.read_lonlat` (lines 430-433): resolve the pixel once
through the FIRST handle's transformer, then index the stack at
`[:, row, col]`.  A constructed stack always has at least one reader
(`__post_init__` would have raised otherwise), so the reader list is passed
as head and tail. -/
def RasterStackReader.read_lonlat (first : RasterReader)
    (rest : List RasterReader) (lon lat : ℚ) : List (List (List (Option ℚ))) :=
  read_3d_seq (first :: rest)
    (first.lonlat_to_rowcol lon lat).1 ((first.lonlat_to_rowcol lon lat).1 + 1)
    (first.lonlat_to_rowcol lon lat).2 ((first.lonlat_to_rowcol lon lat).2 + 1)

/-- A rational extended with an explicit IEEE-style NaN. -/
inductive FloatQ where
  | nan : FloatQ
  | val : ℚ → FloatQ
deriving DecidableEq

/-- IEEE subtraction: NaN on either side propagates. -/
def FloatQ.sub : FloatQ → FloatQ → FloatQ
  | .nan, _ => .nan
  | .val _, .nan => .nan
  | .val a, .val b => .val (a - b)

/-- Scalar `np.nan_to_num`: NaN becomes 0, finite values are unchanged. -/
def np_nan_to_num : FloatQ → FloatQ
  | .nan => .val 0
  | .val x => .val x

/-- A decoded tile as the `Shift` algorithm sees it: data values plus a
numpy-convention boolean mask (`true` = invalid). -/
structure MaskedImage where
  data : List FloatQ
  mask : List Bool
deriving DecidableEq

/-- Parameters of the `Shift` algorithm (titiler.py lines 65-71). -/
structure Shift where
  shift : FloatQ
  nan_to_zero : Bool

/-- `Shift.__call__` (titiler.py lines 72-81): optionally coerce a NaN offset
to 0, then subtract the scalar from `img.array`.  Masked-array subtraction by
a scalar leaves the mask untouched; only the data changes. -/
def Shift.call (alg : Shift) (img : MaskedImage) : MaskedImage :=
  let s := if alg.nan_to_zero then np_nan_to_num alg.shift else alg.shift
  { data := img.data.map fun v => v.sub s, mask := img.mask }

/-- Spec-side notion used by claim C5: a tile is all-invalid when every entry
of its validity mask is set. -/
def all_invalid (img : MaskedImage) : Prop := ∀ b ∈ img.mask, b = true

/-- A decoded primary tile as returned by `rio_tiler`'s `Reader.tile`
(`CustomReader.tile`, readers.py line 529): data values plus the uint8
validity mask where 255 = valid, 0 = invalid. -/
structure ImageTile where
  data : List ℚ
  mask : List Nat

/-- `mask_layer_img.array.filled(0)` (readers.py line 554): replace masked
(mask-raster nodata) entries by 0.  The surrounding `np.squeeze` only drops
the singleton band axis of the one-band mask tile, which the flat pixel list
already has no counterpart for. -/
def filled_zero (arr : List (Option ℚ)) : List ℚ := arr.map fun v => v.getD 0

/-- Mask-combining branch of `CustomReader.tile` (readers.py lines 540-572),
pixel lists aligned by tile position: primary-invalid pixels
(`img.mask == 0`), zeros of the filled mask layer, and mask values below
`mask_min_value` are OR-combined into the numpy mask of the output; the data
is passed through untouched. -/
def CustomReader.tile (img : ImageTile) (maskArr : List (Option ℚ))
    (thr : ℚ) : List ℚ × List Bool :=
  let filled := filled_zero maskArr
  let bad_image_pixels := img.mask.map fun m => m == 0
  let bad_mask_pixels := filled.map fun v => v == 0
  let pixels_below_threshold := filled.map fun v => decide (v < thr)
  (img.data,
    List.zipWith Bool.or (List.zipWith Bool.or bad_image_pixels bad_mask_pixels)
      pixels_below_threshold)

/-- Spec-side invalidity condition claimed by C1 for a pixel whose primary
uint8 mask value is `m` and whose mask-raster sample is `v` (`none` =
mask-raster nodata): primary-invalid, or nodata, or below the threshold. -/
def spec_invalid_claimed (m : Nat) (v : Option ℚ) (thr : ℚ) : Prop :=
  m = 0 ∨ v = none ∨ ∃ x, v = some x ∧ x < thr

/-- Amended invalidity condition matching the code: as claimed, plus a
mask-raster sample of exactly 0 is invalid even when it is a genuine
(non-nodata) value at or above the threshold. -/
def code_invalid_amended (m : Nat) (v : Option ℚ) (thr : ℚ) : Prop :=
  m = 0 ∨ v = none ∨ ∃ x, v = some x ∧ (x = 0 ∨ x < thr)

/-- Modelled from the spec: the `Rewrap` algorithm class is imported and
registered in `main.py` (lines 26 and 328-330) but its definition is absent
from `src/bowser/titiler.py`; per the spec it "takes an unwrapped phase-like
quantity and reduces it modulo 2π into (−π, π]".  The unique representative
of `v` modulo 2π inside `(−π, π]` is `v - 2π·⌈(v − π)/(2π)⌉`. -/
noncomputable def rewrap (v : ℝ) : ℝ :=
  v - 2 * Real.pi * ⌈(v - Real.pi) / (2 * Real.pi)⌉

/-- Modelled from the spec: `Rewrap` applied pixelwise to a real-valued
tile. -/
noncomputable def Rewrap.call (tile : List ℝ) : List ℝ := tile.map rewrap

/-- Scalar `np.isnan` on the exact-real embedding: no real number is NaN,
and `np.angle`/`np.abs` of finite complex input are finite, so the
`np.isnan(data)` disjunct of `_process_complex` is identically false here. -/
def np_isnan (x : ℝ) : Bool := false

/-- Pixelwise `np.angle`: the argument of a complex sample, in radians. -/
noncomputable def np_angle (z : ℂ) : ℝ := Complex.arg z

/-- Pixelwise `np.abs`: the magnitude of a complex sample. -/
noncomputable def np_abs (z : ℂ) : ℝ := Complex.abs z

/-- `_process_complex` (titiler.py lines 45-62): apply `func` to the decoded
complex data, then build the output mask as `isnan(data) ∨ data == 0`
(replacing, not extending, the incoming mask).  Returns (data, numpy mask). -/
noncomputable def process_complex (f : ℂ → ℝ) (data : List ℂ) :
    List ℝ × List Bool :=
  let d := data.map f
  (d, d.map fun x => np_isnan x || decide (x = 0))

/-- `Phase.__call__` (titiler.py lines 31-35): `_process_complex` with
`np.angle`. -/
noncomputable def Phase.call (data : List ℂ) : List ℝ × List Bool :=
  process_complex np_angle data

/-- `Amplitude.__call__` (titiler.py lines 38-42): `_process_complex` with
`np.abs`. -/
noncomputable def Amplitude.call (data : List ℂ) : List ℝ × List Bool :=
  process_complex np_abs data

-- Theorems

/-- Claim C5, counterexample: `Shift` with a NaN offset and
`nan_to_zero = False` applied to a one-pixel valid tile does NOT return an
all-invalid tile — the mask stays `[false]`; only the data is NaN-poisoned. -/
theorem C5_counterexample :
    (Shift.call ⟨FloatQ.nan, false⟩ ⟨[FloatQ.val 1], [false]⟩).mask = [false] ∧
      ¬ all_invalid (Shift.call ⟨FloatQ.nan, false⟩ ⟨[FloatQ.val 1], [false]⟩) := by
  constructor
  · rfl
  · intro h
    have := h false (by simp [Shift.call])
    simp at this

/-- Claim C5 as amended: with `offset = NaN` and `nan_to_zero = True` the
tile is returned unchanged (data and mask); with the flag `False` every data
value becomes NaN while the validity mask is unchanged (NaN poisoning, not
mask invalidation); for a finite offset `s` the scalar is subtracted from
every pixel and the mask is unchanged, whatever the flag. -/
theorem C5_shift_behavior (img : MaskedImage) (s : ℚ) (b : Bool) :
    Shift.call ⟨FloatQ.nan, true⟩ img = img ∧
    (Shift.call ⟨FloatQ.nan, false⟩ img).data
        = img.data.map (fun _ => FloatQ.nan) ∧
    (Shift.call ⟨FloatQ.nan, false⟩ img).mask = img.mask ∧
    Shift.call ⟨FloatQ.val s, b⟩ img
        = ⟨img.data.map fun v => v.sub (FloatQ.val s), img.mask⟩ := by
  refine ⟨?_, ?_, rfl, ?_⟩
  · cases img with
    | mk d m =>
      simp only [Shift.call, np_nan_to_num]
      congr 1
      have h : ∀ v : FloatQ, v.sub (FloatQ.val 0) = v := by
        intro v
        cases v with
        | nan => rfl
        | val a => simp [FloatQ.sub]
      calc d.map (fun v => v.sub (FloatQ.val 0)) = d.map id := by
            exact List.map_congr_left fun v _ => h v
        _ = d := List.map_id d
  · simp only [Shift.call]
    apply List.map_congr_left
    intro v _
    cases v <;> rfl
  · cases b <;> simp [Shift.call, np_nan_to_num]

/-- Helper: entry of the OR-of-three combined mask at an index present in all
three pixel-aligned boolean layers. -/
theorem getElem?_or3 (A B C : List Bool) (i : Nat) (a b c : Bool)
    (hA : A[i]? = some a) (hB : B[i]? = some b) (hC : C[i]? = some c) :
    (List.zipWith Bool.or (List.zipWith Bool.or A B) C)[i]? = some ((a || b) || c) :=
  List.getElem?_zipWith_eq_some.mpr
    ⟨a || b, c, List.getElem?_zipWith_eq_some.mpr ⟨a, b, hA, hB, rfl⟩, hC, rfl⟩

/-- Claim C1, counterexample: with threshold 0 and a genuine (non-nodata)
mask-raster sample of exactly 0 over a valid primary pixel, the code marks
the pixel invalid, but none of the three claimed conditions holds — the
pixel is valid in the primary mask, the sample is not the nodata marker, and
it is not below the threshold. -/
theorem C1_counterexample :
    (CustomReader.tile ⟨[1], [255]⟩ [some 0] 0).2[0]? = some true ∧
      ¬ spec_invalid_claimed 255 (some 0) 0 := by
  constructor
  · rfl
  · rintro (h | h | ⟨x, hx, hlt⟩)
    · exact absurd h (by decide)
    · exact Option.noConfusion h
    · obtain rfl : (0 : ℚ) = x := Option.some_inj.mp hx
      exact absurd hlt (lt_irrefl 0)

/-- Claim C1 as amended: for a tile request through a reader configured with
a mask source, the output data equals the primary data unchanged, and a
pixel is invalid in the combined mask exactly when it is invalid in the
primary tile's own mask, or its mask-raster sample is the mask raster's
nodata marker, or that sample equals exactly 0, or that sample is below the
configured threshold. -/
theorem C1_tile_mask (img : ImageTile) (maskArr : List (Option ℚ)) (thr : ℚ)
    (i : Nat) (m : Nat) (v : Option ℚ)
    (hm : img.mask[i]? = some m) (hv : maskArr[i]? = some v) :
    (CustomReader.tile img maskArr thr).1 = img.data ∧
    ∃ b, (CustomReader.tile img maskArr thr).2[i]? = some b ∧
      (b = true ↔ code_invalid_amended m v thr) := by
  refine ⟨rfl, ((m == 0) || ((v.getD 0) == 0)) || decide ((v.getD 0) < thr), ?_, ?_⟩
  · show (List.zipWith Bool.or
        (List.zipWith Bool.or (img.mask.map fun x => x == 0)
          ((filled_zero maskArr).map fun x => x == 0))
        ((filled_zero maskArr).map fun x => decide (x < thr)))[i]?
      = some (((m == 0) || ((v.getD 0) == 0)) || decide ((v.getD 0) < thr))
    have hfill : (filled_zero maskArr)[i]? = some (v.getD 0) := by
      simp [filled_zero, hv]
    apply getElem?_or3
    · simp [hm]
    · simp [hfill]
    · simp [hfill]
  · cases v with
    | none =>
      simp [code_invalid_amended]
    | some x =>
      simp [code_invalid_amended, Bool.or_eq_true, decide_eq_true_eq, or_assoc]

/-- Witness for C1's amended theorem: the spec scenario — threshold 1/2,
mask samples `[0.2, 0.6, nodata, 0.9]` over primary values `[1,2,3,4]` with
an all-valid primary mask — instantiated at pixel 0, plus the full combined
mask of the scenario: indices 0 and 2 invalid, 1 and 3 valid. -/
theorem C1_witness :
    ((CustomReader.tile ⟨[1, 2, 3, 4], [255, 255, 255, 255]⟩
        [some (1/5), some (3/5), none, some (9/10)] (1/2)).1 = [1, 2, 3, 4] ∧
      ∃ b, (CustomReader.tile ⟨[1, 2, 3, 4], [255, 255, 255, 255]⟩
          [some (1/5), some (3/5), none, some (9/10)] (1/2)).2[0]? = some b ∧
        (b = true ↔ code_invalid_amended 255 (some (1/5)) (1/2))) ∧
    (CustomReader.tile ⟨[1, 2, 3, 4], [255, 255, 255, 255]⟩
        [some (1/5), some (3/5), none, some (9/10)] (1/2)).2
      = [true, false, true, false] :=
  ⟨C1_tile_mask ⟨[1, 2, 3, 4], [255, 255, 255, 255]⟩
      [some (1/5), some (3/5), none, some (9/10)] (1/2) 0 255 (some (1/5))
      rfl rfl,
    by norm_num [CustomReader.tile, filled_zero]⟩

/-- Helper: in the completion-ordered pair list of a concurrent read, lookup
by submission index finds exactly the result computed for that index,
whatever the completion permutation. -/
theorem find_completed {β : Type} (n : Nat) (f : Fin n → β)
    (σ : Equiv.Perm (Fin n)) (i : Nat) (hi : i < n) :
    (((List.finRange n).map fun k => ((σ k).val, f (σ k))).find?
        fun p => p.1 == i) = some (i, f ⟨i, hi⟩) := by
  set L := (List.finRange n).map fun k => ((σ k).val, f (σ k)) with hL
  have hmem : (i, f ⟨i, hi⟩) ∈ L := by
    rw [hL]
    refine List.mem_map.mpr ⟨σ.symm ⟨i, hi⟩, List.mem_finRange _, ?_⟩
    simp
  have hsome : (L.find? fun p => p.1 == i).isSome :=
    List.find?_isSome.mpr ⟨_, hmem, by simp⟩
  obtain ⟨a, ha⟩ := Option.isSome_iff_exists.mp hsome
  have hamem : a ∈ L := List.mem_of_find?_eq_some ha
  rw [hL] at hamem
  obtain ⟨k, -, rfl⟩ := List.mem_map.mp hamem
  have hpa := List.find?_some ha
  have hki : σ k = ⟨i, hi⟩ := Fin.ext (by simpa using hpa)
  rw [ha, hki]

/-- Helper: the concurrent branch of `_read_3d` agrees with the sequential
branch for every completion order. -/
theorem read_3d_conc_eq_seq (readers : List RasterReader) (r0 r1 c0 c1 : Nat)
    (σ : Equiv.Perm (Fin readers.length)) :
    read_3d_conc readers r0 r1 c0 c1 σ = read_3d_seq readers r0 r1 c0 c1 := by
  have hseq : read_3d_seq readers r0 r1 c0 c1
      = (List.finRange readers.length).map
          fun k => (readers.get k).getitem r0 r1 c0 c1 := by
    conv_lhs => rw [read_3d_seq, ← List.finRange_map_get readers]
    rw [List.map_map]
    rfl
  apply List.ext_getElem
  · simp [read_3d_conc, hseq]
  · intro i hL hR
    have hi : i < readers.length := by simpa [read_3d_conc] using hL
    simp only [read_3d_conc, List.getElem_map, List.getElem_range,
      find_completed readers.length
        (fun k => (readers.get k).getitem r0 r1 c0 c1) σ i hi]
    simp [hseq]

/-- Helper: squeezing the stack of per-band squeezed 2-D reads gives the same
shape as squeezing the full `(n, h, w)` dimension list at once. -/
theorem read_3d_result_shape_eq (n h w : Nat) :
    read_3d_result_shape n h w = np_squeeze_shape [n, h, w] := by
  unfold read_3d_result_shape np_squeeze_shape
  by_cases hh : h = 1 <;> by_cases hw : w = 1 <;>
    simp [hh, hw, List.filter_cons, bne_iff_ne]

/-- Claim C2: a windowed stack read over `(r0:r1, c0:c1)` returns one band
per file, in file order (band `i` is file `i`'s window, whatever the I/O
completion order), each band an `(r1-r0) × (c1-c0)` window, and the numpy
result shape is `(N, r1-r0, c1-c0)` with singleton axes squeezed away. -/
theorem C2_stack_window_read (readers : List RasterReader)
    (H W r0 r1 c0 c1 : Nat)
    (hshape : ∀ rd ∈ readers, rd.rows = H ∧ rd.cols = W)
    (hr0 : r0 ≤ r1) (hr1 : r1 ≤ H) (hc0 : c0 ≤ c1) (hc1 : c1 ≤ W) :
    (read_3d_seq readers r0 r1 c0 c1).length = readers.length ∧
    (∀ i : Nat, (read_3d_seq readers r0 r1 c0 c1)[i]?
        = readers[i]?.map fun rd => rd.getitem r0 r1 c0 c1) ∧
    (∀ rd ∈ readers,
        (rd.getitem r0 r1 c0 c1).length = r1 - r0 ∧
        ∀ row ∈ rd.getitem r0 r1 c0 c1, row.length = c1 - c0) ∧
    (∀ σ : Equiv.Perm (Fin readers.length),
        read_3d_conc readers r0 r1 c0 c1 σ = read_3d_seq readers r0 r1 c0 c1) ∧
    read_3d_result_shape readers.length (r1 - r0) (c1 - c0)
      = np_squeeze_shape [readers.length, r1 - r0, c1 - c0] := by
  refine ⟨by simp [read_3d_seq], ?_, ?_, ?_, read_3d_result_shape_eq _ _ _⟩
  · intro i
    simp [read_3d_seq]
  · intro rd _
    refine ⟨by simp [RasterReader.getitem], ?_⟩
    intro row hrow
    simp only [RasterReader.getitem, List.mem_map] at hrow
    obtain ⟨i, -, rfl⟩ := hrow
    simp
  · intro σ
    exact read_3d_conc_eq_seq readers r0 r1 c0 c1 σ

/-- Witness for C2: two co-registered 3×3 readers, window `(0:2, 0:2)`. -/
theorem C2_witness :
    (∀ rd ∈ [(⟨3, 3, fun r c => (r : ℚ) * 3 + (c : ℚ), none,
          fun _ _ => (0, 0)⟩ : RasterReader),
        ⟨3, 3, fun r c => (r : ℚ) * 5 + (c : ℚ), some 7, fun _ _ => (0, 0)⟩],
      rd.rows = 3 ∧ rd.cols = 3) ∧
    ((read_3d_seq [⟨3, 3, fun r c => (r : ℚ) * 3 + (c : ℚ), none,
          fun _ _ => (0, 0)⟩,
        ⟨3, 3, fun r c => (r : ℚ) * 5 + (c : ℚ), some 7, fun _ _ => (0, 0)⟩]
        0 2 0 2).length = 2 ∧
      (∀ i : Nat, (read_3d_seq [⟨3, 3, fun r c => (r : ℚ) * 3 + (c : ℚ), none,
            fun _ _ => (0, 0)⟩,
          ⟨3, 3, fun r c => (r : ℚ) * 5 + (c : ℚ), some 7, fun _ _ => (0, 0)⟩]
          0 2 0 2)[i]?
          = ([(⟨3, 3, fun r c => (r : ℚ) * 3 + (c : ℚ), none,
              fun _ _ => (0, 0)⟩ : RasterReader),
            ⟨3, 3, fun r c => (r : ℚ) * 5 + (c : ℚ), some 7,
              fun _ _ => (0, 0)⟩][i]?).map fun rd => rd.getitem 0 2 0 2) ∧
      (∀ rd ∈ [(⟨3, 3, fun r c => (r : ℚ) * 3 + (c : ℚ), none,
            fun _ _ => (0, 0)⟩ : RasterReader),
          ⟨3, 3, fun r c => (r : ℚ) * 5 + (c : ℚ), some 7, fun _ _ => (0, 0)⟩],
          (rd.getitem 0 2 0 2).length = 2 - 0 ∧
          ∀ row ∈ rd.getitem 0 2 0 2, row.length = 2 - 0) ∧
      (∀ σ : Equiv.Perm (Fin (List.length [(⟨3, 3,
            fun r c => (r : ℚ) * 3 + (c : ℚ), none,
            fun _ _ => (0, 0)⟩ : RasterReader),
          ⟨3, 3, fun r c => (r : ℚ) * 5 + (c : ℚ), some 7,
            fun _ _ => (0, 0)⟩])),
          read_3d_conc [⟨3, 3, fun r c => (r : ℚ) * 3 + (c : ℚ), none,
              fun _ _ => (0, 0)⟩,
            ⟨3, 3, fun r c => (r : ℚ) * 5 + (c : ℚ), some 7,
              fun _ _ => (0, 0)⟩] 0 2 0 2 σ
            = read_3d_seq [⟨3, 3, fun r c => (r : ℚ) * 3 + (c : ℚ), none,
              fun _ _ => (0, 0)⟩,
            ⟨3, 3, fun r c => (r : ℚ) * 5 + (c : ℚ), some 7,
              fun _ _ => (0, 0)⟩] 0 2 0 2) ∧
      read_3d_result_shape (List.length [(⟨3, 3,
          fun r c => (r : ℚ) * 3 + (c : ℚ), none,
          fun _ _ => (0, 0)⟩ : RasterReader),
        ⟨3, 3, fun r c => (r : ℚ) * 5 + (c : ℚ), some 7,
          fun _ _ => (0, 0)⟩]) (2 - 0) (2 - 0)
        = np_squeeze_shape [List.length [(⟨3, 3,
            fun r c => (r : ℚ) * 3 + (c : ℚ), none,
            fun _ _ => (0, 0)⟩ : RasterReader),
          ⟨3, 3, fun r c => (r : ℚ) * 5 + (c : ℚ), some 7,
            fun _ _ => (0, 0)⟩], 2 - 0, 2 - 0]) := by
  have hshape : ∀ rd ∈ [(⟨3, 3, fun r c => (r : ℚ) * 3 + (c : ℚ), none,
        fun _ _ => (0, 0)⟩ : RasterReader),
      ⟨3, 3, fun r c => (r : ℚ) * 5 + (c : ℚ), some 7, fun _ _ => (0, 0)⟩],
      rd.rows = 3 ∧ rd.cols = 3 := by
    intro rd h
    rcases List.mem_cons.mp h with rfl | h
    · exact ⟨rfl, rfl⟩
    · rcases List.mem_cons.mp h with rfl | h
      · exact ⟨rfl, rfl⟩
      · exact absurd h (List.not_mem_nil rd)
  exact ⟨hshape, C2_stack_window_read _ 3 3 0 2 0 2 hshape
    (by decide) (by decide) (by decide) (by decide)⟩

/-- Claim C9: the stack's `read_lonlat` equals the manual composition —
resolve pixel coordinates through the first handle's lon/lat→pixel
transform, then index the stack at that pixel — and, the handles being
co-registered, band `i` of the result is exactly handle `i`'s own
`read_lonlat` value at that coordinate. -/
theorem C9_read_lonlat_consistency (first : RasterReader)
    (rest : List RasterReader) (lon lat : ℚ)
    (hco : ∀ rd ∈ first :: rest, rd.lonlat_to_rowcol = first.lonlat_to_rowcol) :
    RasterStackReader.read_lonlat first rest lon lat
        = read_3d_seq (first :: rest)
            (first.lonlat_to_rowcol lon lat).1
            ((first.lonlat_to_rowcol lon lat).1 + 1)
            (first.lonlat_to_rowcol lon lat).2
            ((first.lonlat_to_rowcol lon lat).2 + 1) ∧
    RasterStackReader.read_lonlat first rest lon lat
        = (first :: rest).map fun rd => [[rd.read_lonlat lon lat]] := by
  refine ⟨rfl, ?_⟩
  unfold RasterStackReader.read_lonlat read_3d_seq
  apply List.map_congr_left
  intro rd hrd
  have h := hco rd hrd
  simp [RasterReader.getitem, RasterReader.read_lonlat, h,
    Nat.add_sub_cancel_left, List.range_succ]

/-- Witness for C9: a two-handle stack sharing one pixel transform. -/
theorem C9_witness :
    (∀ rd ∈ [(⟨4, 4, fun r c => (r : ℚ) + (c : ℚ), none,
          fun x y => (1, 2)⟩ : RasterReader),
        ⟨4, 4, fun r c => (r : ℚ) * (c : ℚ), some 3, fun x y => (1, 2)⟩],
      rd.lonlat_to_rowcol
        = (⟨4, 4, fun r c => (r : ℚ) + (c : ℚ), none,
            fun x y => (1, 2)⟩ : RasterReader).lonlat_to_rowcol) ∧
    RasterStackReader.read_lonlat
        ⟨4, 4, fun r c => (r : ℚ) + (c : ℚ), none, fun x y => (1, 2)⟩
        [⟨4, 4, fun r c => (r : ℚ) * (c : ℚ), some 3, fun x y => (1, 2)⟩] 5 6
      = [(⟨4, 4, fun r c => (r : ℚ) + (c : ℚ), none,
            fun x y => (1, 2)⟩ : RasterReader),
          ⟨4, 4, fun r c => (r : ℚ) * (c : ℚ), some 3,
            fun x y => (1, 2)⟩].map fun rd => [[rd.read_lonlat 5 6]] := by
  have hco : ∀ rd ∈ [(⟨4, 4, fun r c => (r : ℚ) + (c : ℚ), none,
        fun x y => (1, 2)⟩ : RasterReader),
      ⟨4, 4, fun r c => (r : ℚ) * (c : ℚ), some 3, fun x y => (1, 2)⟩],
      rd.lonlat_to_rowcol
        = (⟨4, 4, fun r c => (r : ℚ) + (c : ℚ), none,
            fun x y => (1, 2)⟩ : RasterReader).lonlat_to_rowcol := by
    intro rd h
    rcases List.mem_cons.mp h with rfl | h
    · rfl
    · rcases List.mem_cons.mp h with rfl | h
      · rfl
      · exact absurd h (List.not_mem_nil rd)
  exact ⟨hco, (C9_read_lonlat_consistency _ _ 5 6 hco).2⟩

/-- Helper: the per-reader nodata values discovered by `from_file_list` are
exactly the files' own recorded nodata values (the caller's argument is not
forwarded to `from_file`, and `None or x` is `x`). -/
theorem from_file_list_nodata_map (files : List FileMeta) :
    ((files.map fun f => RasterReader.from_file f none).map
        RasterReader.nodata) = files.map FileMeta.nodata := by
  rw [List.map_map]
  rfl

/-- Helper: `stack_nodata` keeps the caller's value unless the discovered
set is a singleton. -/
theorem stack_nodata_of_not_single (l : List (Option ℚ)) (caller : Option ℚ)
    (h : l.dedup.length ≠ 1) : stack_nodata l caller = caller := by
  unfold stack_nodata
  split
  · next x heq => exact absurd (by rw [heq]; rfl) h
  · rfl

/-- Helper: a nonempty list whose elements all equal `a` dedups to `[a]`. -/
theorem dedup_const {α : Type} [DecidableEq α] (a : α) :
    ∀ l : List α, l ≠ [] → (∀ x ∈ l, x = a) → l.dedup = [a] := by
  intro l
  induction l with
  | nil => simp
  | cons x t ih =>
    intro _ hall
    have hx : x = a := hall x (by simp)
    by_cases ht : t = []
    · subst ht
      simp [hx]
    · have hd := ih ht fun y hy => hall y (by simp [hy])
      have hmem : x ∈ t := by
        obtain ⟨y, hy⟩ := List.exists_mem_of_ne_nil t ht
        have hya : y = a := hall y (by simp [hy])
        rw [hx, ← hya]
        exact hy
      rw [List.dedup_cons_of_mem hmem, hd]

/-- Claim C4: building a stack with the default (absent) nodata argument, a
single distinct discovered nodata value becomes the stack-wide nodata;
otherwise the stack-wide nodata stays unset; and independently of the stack
value, a member reader with its own nodata masks exactly that value in its
windowed reads. -/
theorem C4_stack_nodata_resolution (files : List FileMeta) :
    (∀ x, (files.map FileMeta.nodata).dedup = [x] →
        (RasterStackReader.from_file_list files none).2 = x) ∧
    ((files.map FileMeta.nodata).dedup.length ≠ 1 →
        (RasterStackReader.from_file_list files none).2 = none) ∧
    (∀ rd ∈ (RasterStackReader.from_file_list files none).1,
        ∀ nd, rd.nodata = some nd → ∀ r c : Nat,
          (mask_array_pixel rd.nodata (rd.vals r c) = none ↔
            rd.vals r c = nd)) ∧
    (∀ rd : RasterReader, ∀ r0 r1 c0 c1 i j : Nat,
        i < r1 - r0 → j < c1 - c0 →
          ∃ row, (rd.getitem r0 r1 c0 c1)[i]? = some row ∧
            row[j]? = some (mask_array_pixel rd.nodata
              (rd.vals (r0 + i) (c0 + j)))) := by
  refine ⟨?_, ?_, ?_, ?_⟩
  · intro x h
    show stack_nodata ((files.map fun f =>
        RasterReader.from_file f none).map RasterReader.nodata) none = x
    rw [from_file_list_nodata_map, stack_nodata, h]
  · intro h
    show stack_nodata ((files.map fun f =>
        RasterReader.from_file f none).map RasterReader.nodata) none = none
    rw [from_file_list_nodata_map]
    exact stack_nodata_of_not_single _ _ h
  · intro rd _ nd hnd r c
    rw [hnd]
    simp only [mask_array_pixel]
    split_ifs with hvc <;> simp [hvc]
  · intro rd r0 r1 c0 c1 i j hi hj
    refine ⟨(List.range (c1 - c0)).map fun jj =>
        mask_array_pixel rd.nodata (rd.vals (r0 + i) (c0 + jj)), ?_, ?_⟩
    · simp [RasterReader.getitem, List.getElem?_range hi]
    · simp [List.getElem?_range hj]

/-- Witness for C4: the spec scenario — three 10×10 files, one with
nodata -9999, two with none — gives an unset stack nodata, while the -9999
file's reader still masks -9999 in its own windows. -/
theorem C4_witness :
    (([some (-9999 : ℚ), none, none] : List (Option ℚ)).dedup.length ≠ 1) ∧
    (RasterStackReader.from_file_list
        [⟨10, 10, fun _ _ => -9999, some (-9999), fun _ _ => (0, 0)⟩,
          ⟨10, 10, fun _ _ => 1, none, fun _ _ => (0, 0)⟩,
          ⟨10, 10, fun _ _ => 2, none, fun _ _ => (0, 0)⟩] none).2 = none := by
  have hded : (([⟨10, 10, fun _ _ => -9999, some (-9999), fun _ _ => (0, 0)⟩,
        ⟨10, 10, fun _ _ => 1, none, fun _ _ => (0, 0)⟩,
        ⟨10, 10, fun _ _ => 2, none, fun _ _ => (0, 0)⟩] :
          List FileMeta).map FileMeta.nodata).dedup.length ≠ 1 := by
    decide
  exact ⟨by decide,
    (C4_stack_nodata_resolution
      [⟨10, 10, fun _ _ => -9999, some (-9999), fun _ _ => (0, 0)⟩,
        ⟨10, 10, fun _ _ => 1, none, fun _ _ => (0, 0)⟩,
        ⟨10, 10, fun _ _ => 2, none, fun _ _ => (0, 0)⟩]).2.1 hded⟩

/-- Claim C10: in `from_file_list` the caller-supplied nodata argument is
silently overwritten whenever the discovered per-file nodata values form a
single distinct value — including the all-`None` case, where an explicitly
passed nodata is discarded and the stack nodata becomes `None` — and the
caller's argument survives only when the files disagree among themselves. -/
theorem C10_caller_nodata_overwritten (files : List FileMeta)
    (caller : Option ℚ) :
    (∀ x, (files.map FileMeta.nodata).dedup = [x] →
        (RasterStackReader.from_file_list files caller).2 = x) ∧
    (files ≠ [] → (∀ f ∈ files, f.nodata = none) →
        (RasterStackReader.from_file_list files caller).2 = none) ∧
    ((files.map FileMeta.nodata).dedup.length ≠ 1 →
        (RasterStackReader.from_file_list files caller).2 = caller) := by
  have hsingle : ∀ x, (files.map FileMeta.nodata).dedup = [x] →
      (RasterStackReader.from_file_list files caller).2 = x := by
    intro x h
    show stack_nodata ((files.map fun f =>
        RasterReader.from_file f none).map RasterReader.nodata) caller = x
    rw [from_file_list_nodata_map, stack_nodata, h]
  refine ⟨hsingle, ?_, ?_⟩
  · intro hne hall
    apply hsingle
    apply dedup_const
    · simpa using hne
    · intro v hv
      obtain ⟨f, hf, rfl⟩ := List.mem_map.mp hv
      exact hall f hf
  · intro h
    show stack_nodata ((files.map fun f =>
        RasterReader.from_file f none).map RasterReader.nodata) caller = caller
    rw [from_file_list_nodata_map]
    exact stack_nodata_of_not_single _ _ h

/-- Witness for C10: two all-`None` files with an explicit caller nodata 5
end with an unset stack nodata; two disagreeing files keep the caller's 5. -/
theorem C10_witness :
    (([⟨2, 2, fun _ _ => 0, none, fun _ _ => (0, 0)⟩,
        ⟨2, 2, fun _ _ => 1, none, fun _ _ => (0, 0)⟩] : List FileMeta) ≠ [] ∧
      ∀ f ∈ ([⟨2, 2, fun _ _ => 0, none, fun _ _ => (0, 0)⟩,
        ⟨2, 2, fun _ _ => 1, none, fun _ _ => (0, 0)⟩] : List FileMeta),
        f.nodata = none) ∧
    (RasterStackReader.from_file_list
        [⟨2, 2, fun _ _ => 0, none, fun _ _ => (0, 0)⟩,
          ⟨2, 2, fun _ _ => 1, none, fun _ _ => (0, 0)⟩] (some 5)).2 = none ∧
    (RasterStackReader.from_file_list
        [⟨2, 2, fun _ _ => 0, some 1, fun _ _ => (0, 0)⟩,
          ⟨2, 2, fun _ _ => 1, some 2, fun _ _ => (0, 0)⟩] (some 5)).2
      = some 5 := by
  have hall : ∀ f ∈ ([⟨2, 2, fun _ _ => 0, none, fun _ _ => (0, 0)⟩,
      ⟨2, 2, fun _ _ => 1, none, fun _ _ => (0, 0)⟩] : List FileMeta),
      f.nodata = none := by
    intro f hf
    rcases List.mem_cons.mp hf with rfl | hf
    · rfl
    · rcases List.mem_cons.mp hf with rfl | hf
      · rfl
      · exact absurd hf (List.not_mem_nil f)
  refine ⟨⟨by simp, hall⟩, ?_, ?_⟩
  · exact (C10_caller_nodata_overwritten
      [⟨2, 2, fun _ _ => 0, none, fun _ _ => (0, 0)⟩,
        ⟨2, 2, fun _ _ => 1, none, fun _ _ => (0, 0)⟩] (some 5)).2.1
      (by simp) hall
  · exact (C10_caller_nodata_overwritten
      [⟨2, 2, fun _ _ => 0, some 1, fun _ _ => (0, 0)⟩,
        ⟨2, 2, fun _ _ => 1, some 2, fun _ _ => (0, 0)⟩] (some 5)).2.2
      (by decide)

/-- Helper: a single unopenable path aborts the whole bulk open with the
propagated error. -/
theorem open_all_error_of_mem (files : List (Option FileMeta))
    (h : none ∈ files) : open_all files = .error "rasterio open failed" := by
  induction files with
  | nil => simp at h
  | cons f fs ih =>
    rcases List.mem_cons.mp h with hf | hmem
    · rw [← hf]
      rfl
    · cases f with
      | none => rfl
      | some m =>
        show (do
          let r ← open_raster (some m)
          let rs ← open_all fs
          Except.ok (r :: rs)) = Except.error "rasterio open failed"
        rw [ih hmem]
        rfl

/-- Claim C7: stack construction fails outright for an empty file list
(`__post_init__` dereferences `readers[0]`) and whenever any member path
cannot be opened (the bulk-open error propagates); in neither case is any
partial stack returned. -/
theorem C7_construction_aborts (files : List (Option FileMeta))
    (nodata : Option ℚ) (hbad : files = [] ∨ none ∈ files) :
    ∀ s, RasterStackReader.from_file_list_checked files nodata
      ≠ Except.ok s := by
  intro s
  rcases hbad with rfl | hmem
  · intro hc
    exact Except.noConfusion hc
  · intro hc
    rw [show RasterStackReader.from_file_list_checked files nodata
        = (do
            let readers ← open_all files
            if readers.isEmpty then
              Except.error "IndexError in post-init: readers[0]"
            else
              Except.ok (readers,
                stack_nodata (readers.map RasterReader.nodata) nodata)) from rfl,
      open_all_error_of_mem files hmem] at hc
    exact Except.noConfusion hc

/-- Witness for C7: the spec scenario — five paths with the third
unopenable — yields no stack at all, not a partial four-file stack. -/
theorem C7_witness :
    (([some ⟨10, 10, fun _ _ => 0, none, fun _ _ => (0, 0)⟩,
        some ⟨10, 10, fun _ _ => 1, none, fun _ _ => (0, 0)⟩,
        none,
        some ⟨10, 10, fun _ _ => 3, none, fun _ _ => (0, 0)⟩,
        some ⟨10, 10, fun _ _ => 4, none, fun _ _ => (0, 0)⟩] :
          List (Option FileMeta)) = [] ∨
      none ∈ ([some ⟨10, 10, fun _ _ => 0, none, fun _ _ => (0, 0)⟩,
        some ⟨10, 10, fun _ _ => 1, none, fun _ _ => (0, 0)⟩,
        none,
        some ⟨10, 10, fun _ _ => 3, none, fun _ _ => (0, 0)⟩,
        some ⟨10, 10, fun _ _ => 4, none, fun _ _ => (0, 0)⟩] :
          List (Option FileMeta))) ∧
    ∀ s, RasterStackReader.from_file_list_checked
        [some ⟨10, 10, fun _ _ => 0, none, fun _ _ => (0, 0)⟩,
          some ⟨10, 10, fun _ _ => 1, none, fun _ _ => (0, 0)⟩,
          none,
          some ⟨10, 10, fun _ _ => 3, none, fun _ _ => (0, 0)⟩,
          some ⟨10, 10, fun _ _ => 4, none, fun _ _ => (0, 0)⟩] none
      ≠ Except.ok s :=
  ⟨Or.inr (by simp),
    C7_construction_aborts _ none (Or.inr (by simp))⟩

/-- Helper: every rewrapped value lies in `(−π, π]`. -/
theorem rewrap_mem_Ioc (v : ℝ) :
    rewrap v ∈ Set.Ioc (-Real.pi) Real.pi := by
  have hpi : (0 : ℝ) < 2 * Real.pi := by positivity
  set c : ℝ := (⌈(v - Real.pi) / (2 * Real.pi)⌉ : ℝ) with hc
  have h1 : (v - Real.pi) / (2 * Real.pi) ≤ c := Int.le_ceil _
  have h2 : c < (v - Real.pi) / (2 * Real.pi) + 1 := Int.ceil_lt_add_one _
  have e : (v - Real.pi) / (2 * Real.pi) * (2 * Real.pi) = v - Real.pi :=
    div_mul_cancel₀ _ (ne_of_gt hpi)
  have h1m : v - Real.pi ≤ c * (2 * Real.pi) := by
    calc v - Real.pi = (v - Real.pi) / (2 * Real.pi) * (2 * Real.pi) := e.symm
      _ ≤ c * (2 * Real.pi) := mul_le_mul_of_nonneg_right h1 hpi.le
  have h2m : c * (2 * Real.pi) < (v - Real.pi) + 2 * Real.pi := by
    calc c * (2 * Real.pi)
        < ((v - Real.pi) / (2 * Real.pi) + 1) * (2 * Real.pi) :=
          mul_lt_mul_of_pos_right h2 hpi
      _ = (v - Real.pi) + 2 * Real.pi := by rw [add_mul, e, one_mul]
  rw [Set.mem_Ioc]
  unfold rewrap
  rw [← hc]
  constructor
  · nlinarith
  · nlinarith

/-- Helper: rewrap is invariant under shifting by integer multiples of 2π. -/
theorem rewrap_add_int_mul (v : ℝ) (k : ℤ) :
    rewrap (v + 2 * Real.pi * k) = rewrap v := by
  unfold rewrap
  have hpi : (2 * Real.pi) ≠ 0 := by positivity
  have harg : (v + 2 * Real.pi * k - Real.pi) / (2 * Real.pi)
      = (v - Real.pi) / (2 * Real.pi) + k := by
    field_simp
    ring
  rw [harg, Int.ceil_add_int]
  push_cast
  ring

/-- Helper: rewrap is the identity on `(−π, π]`. -/
theorem rewrap_eq_self (v : ℝ) (h : v ∈ Set.Ioc (-Real.pi) Real.pi) :
    rewrap v = v := by
  obtain ⟨h1, h2⟩ := h
  have hpi : (0 : ℝ) < 2 * Real.pi := by positivity
  have hceil : ⌈(v - Real.pi) / (2 * Real.pi)⌉ = 0 := by
    rw [Int.ceil_eq_zero_iff, Set.mem_Ioc]
    constructor
    · rw [lt_div_iff hpi]
      nlinarith
    · rw [div_le_iff hpi]
      nlinarith
  unfold rewrap
  rw [hceil]
  push_cast
  ring

/-- Claim C3: every value of a rewrapped tile lies in `(−π, π]`, each output
value is congruent to its input modulo 2π, and rewrap is idempotent up to
wrapping — `rewrap (unwrap (rewrap x)) = rewrap x` for any pixelwise
`unwrap` that only adds integer multiples of 2π. -/
theorem C3_rewrap_properties (tile : List ℝ) (u : ℝ → ℝ)
    (hu : ∀ y : ℝ, ∃ k : ℤ, u y = y + 2 * Real.pi * k) :
    (∀ w ∈ Rewrap.call tile, w ∈ Set.Ioc (-Real.pi) Real.pi) ∧
    (∀ v ∈ tile, ∃ k : ℤ, rewrap v = v - 2 * Real.pi * k) ∧
    Rewrap.call ((Rewrap.call tile).map u) = Rewrap.call tile := by
  refine ⟨?_, ?_, ?_⟩
  · intro w hw
    obtain ⟨v, -, rfl⟩ := List.mem_map.mp hw
    exact rewrap_mem_Ioc v
  · intro v _
    exact ⟨⌈(v - Real.pi) / (2 * Real.pi)⌉, rfl⟩
  · simp only [Rewrap.call, List.map_map]
    apply List.map_congr_left
    intro v _
    show rewrap (u (rewrap v)) = rewrap v
    obtain ⟨k, hk⟩ := hu (rewrap v)
    rw [hk, rewrap_add_int_mul, rewrap_eq_self _ (rewrap_mem_Ioc v)]

/-- Witness for C3: the one-pixel tile `[0]` with the trivial unwrap. -/
theorem C3_witness :
    (∀ y : ℝ, ∃ k : ℤ, id y = y + 2 * Real.pi * k) ∧
    ((∀ w ∈ Rewrap.call [0], w ∈ Set.Ioc (-Real.pi) Real.pi) ∧
      (∀ v ∈ ([0] : List ℝ), ∃ k : ℤ, rewrap v = v - 2 * Real.pi * k) ∧
      Rewrap.call ((Rewrap.call [0]).map id) = Rewrap.call [0]) := by
  have hu : ∀ y : ℝ, ∃ k : ℤ, id y = y + 2 * Real.pi * k := by
    intro y
    exact ⟨0, by simp⟩
  exact ⟨hu, C3_rewrap_properties [0] id hu⟩

/-- Claim C6: `Phase` maps each complex pixel to its angle in radians,
`Amplitude` to its magnitude, and in both a pixel whose transformed value is
exactly the real 0 is marked invalid in the output mask. -/
theorem C6_phase_amplitude (data : List ℂ) (i : Nat) (z : ℂ)
    (h : data[i]? = some z) :
    (Phase.call data).1[i]? = some (Complex.arg z) ∧
    (Amplitude.call data).1[i]? = some (Complex.abs z) ∧
    (Complex.arg z = 0 → (Phase.call data).2[i]? = some true) ∧
    (Complex.abs z = 0 → (Amplitude.call data).2[i]? = some true) := by
  refine ⟨?_, ?_, ?_, ?_⟩
  · simp [Phase.call, process_complex, np_angle, h]
  · simp [Amplitude.call, process_complex, np_abs, h]
  · intro ha
    simp [Phase.call, process_complex, np_angle, np_isnan, h, ha]
  · intro ha
    simp [Amplitude.call, process_complex, np_abs, np_isnan, h, ha]

/-- Witness for C6: the one-pixel tile `[0 + 0i]`; `angle 0 = 0` and
`abs 0 = 0` are numerically defined, yet the pixel is masked invalid. -/
theorem C6_witness :
    (([0] : List ℂ)[0]? = some 0) ∧
    Complex.arg 0 = 0 ∧ Complex.abs 0 = 0 ∧
    ((Phase.call [0]).1[0]? = some (Complex.arg 0) ∧
      (Amplitude.call [0]).1[0]? = some (Complex.abs 0) ∧
      (Complex.arg 0 = 0 → (Phase.call [0]).2[0]? = some true) ∧
      (Complex.abs 0 = 0 → (Amplitude.call [0]).2[0]? = some true)) ∧
    (Phase.call [0]).2[0]? = some true ∧
    (Amplitude.call [0]).2[0]? = some true := by
  have h : (([0] : List ℂ))[0]? = some 0 := rfl
  have hmain := C6_phase_amplitude [0] 0 0 h
  exact ⟨h, Complex.arg_zero, Complex.abs.map_zero, hmain,
    hmain.2.2.1 Complex.arg_zero, hmain.2.2.2 Complex.abs.map_zero⟩
